import Mathlib

/-!
Verification of `model_fitting.py`: a single-pass script that fits the
fixed-exponent percolation model to inline ionic-conductivity datasets,
prints a table, and exports two CSV files.

The embedding below follows the source file `src/model_fitting.py`:
numeric data entered as decimal literals is held in `ℚ`, the model and the
fitted quantities live in `ℝ`, the IEEE NaN produced by a negative base
raised to a non-integer power is modelled by `Option.none`, and a solver
exception is modelled by `Except.error`. The `scipy.optimize.curve_fit`
call is treated as an abstract solver parameter returning a pair (A, B),
since its numeric algorithm is library code outside the repository.
-/

namespace PectinModel

/-- Critical threshold `x_c = 0.05`, fixed inside the model function
(source line 15). -/
def x_c : ℝ := 0.05

/-- Value of the percolation expression `A * (x - x_c)**t * np.exp(-B * x)`
(source line 16) on the domain where it denotes a real number. -/
noncomputable def percolationVal (x A B : ℝ) (t : ℝ := 4.5) : ℝ :=
  A * (x - x_c) ^ t * Real.exp (-B * x)

open Classical in
/-- Embedding of `percolation_model_fixed_t` (source lines 9-16).
`numpy` yields NaN exactly when the base `x - x_c` is negative and the
exponent `t` is not an integer; NaN is modelled as `none`.  The exponent
defaults to `t = 4.5` and no caller of this repository ever overrides it. -/
noncomputable def percolation_model_fixed_t (x A B : ℝ) (t : ℝ := 4.5) : Option ℝ :=
  if x - x_c < 0 ∧ ¬ ∃ n : ℤ, t = (n : ℝ) then none
  else some (percolationVal x A B t)

/-- Modelled from the spec: the contract of the model evaluator, "returns
A · (x − x_c)^t · exp(−B · x)" with fixed `x_c = 0.05` and `t = 4.5`
(spec section 4.1), stated as a plain real closed form. -/
noncomputable def specClosedForm (x A B : ℝ) : ℝ :=
  A * (x - 0.05) ^ (4.5 : ℝ) * Real.exp (-B * x)

/-- One entry of `data_registry` (source lines 22-63). -/
structure Dataset where
  system : String
  valency : String
  charge : ℤ
  x : List ℚ
  sigma : List ℚ
  fit : Bool

/-- Registry entry for LiCl (source lines 24-30). -/
def dsLiCl : Dataset :=
  { system := "LiCl (Li+)", valency := "Monovalent", charge := 1,
    x := [0.10, 0.20, 0.30, 0.40, 0.50],
    sigma := [4.98e-7, 3.55e-6, 3.61e-5, 6.61e-4, 2.08e-3],
    fit := true }

/-- Registry entry for NaN3, intentionally excluded from fitting
(source lines 32-38). -/
def dsNaN3 : Dataset :=
  { system := "NaN3 (Na+)", valency := "Monovalent", charge := 1,
    x := [0.05, 0.10, 0.15, 0.20],
    sigma := [1.85e-7, 2.70e-6, 2.40e-6, 2.20e-6],
    fit := false }

/-- Registry entry for NH4I (source lines 40-46). -/
def dsNH4I : Dataset :=
  { system := "NH4I (NH4+)", valency := "Monovalent", charge := 1,
    x := [0.30, 0.40, 0.50, 0.60, 0.70],
    sigma := [5.1e-6, 9.7e-5, 3.7e-4, 1.2e-3, 4.5e-3],
    fit := true }

/-- Registry entry for Mg(NO3)2 (source lines 48-54). -/
def dsMgNO3 : Dataset :=
  { system := "Mg(NO3)2 (Mg2+)", valency := "Divalent", charge := 2,
    x := [0.30, 0.40, 0.50, 0.60],
    sigma := [4.86e-6, 6.86e-5, 7.70e-4, 7.53e-4],
    fit := true }

/-- Registry entry for ZnCl2 (source lines 56-62). -/
def dsZnCl2 : Dataset :=
  { system := "ZnCl2 (Zn2+)", valency := "Divalent", charge := 2,
    x := [0.50, 0.60, 0.70],
    sigma := [6.72e-4, 4.49e-3, 4.21e-3],
    fit := true }

/-- The dataset registry in insertion order (a Python dict preserves
insertion order), source lines 22-63. -/
def data_registry : List Dataset :=
  [dsLiCl, dsNaN3, dsNH4I, dsMgNO3, dsZnCl2]

/-- One entry of `raw_data_table` (source line 80). -/
structure RawRow where
  system : String
  charge : ℤ
  x : ℚ
  sigma : ℚ

/-- The raw rows contributed by one dataset: one per `zip(d.x, d.sigma)`
pair (source lines 79-80). -/
def rawRows (d : Dataset) : List RawRow :=
  (d.x.zip d.sigma).map fun p => { system := d.system, charge := d.charge, x := p.1, sigma := p.2 }

/-- One entry of `fit_table` (source line 104). -/
structure FitRow where
  system : String
  charge : ℤ
  A : ℝ
  B : ℝ
  vpi : ℝ
  rmse : ℝ
  r2 : ℝ

/-- Modelled from the spec: RMSE is built from the "mean squared residual"
(spec section 4.2) — the `sklearn.metrics.mean_squared_error` call is
library code not under `src/`. -/
noncomputable def mean_squared_error (y yf : List ℝ) : ℝ :=
  (((y.zip yf).map fun p => (p.1 - p.2) ^ 2).sum) / (y.length : ℝ)

/-- Modelled from the spec: R² is the "coefficient of determination"
(spec section 4.2) — the `sklearn.metrics.r2_score` call is library code
not under `src/`. -/
noncomputable def r2_score (y yf : List ℝ) : ℝ :=
  1 - (((y.zip yf).map fun p => (p.1 - p.2) ^ 2).sum) /
      ((y.map fun v => (v - y.sum / (y.length : ℝ)) ^ 2).sum)

/-- The fit-table row built for a fitted dataset from the solver output
`p = (A, B)` (source lines 97-104).  The predictions `y_fit` use
`percolationVal`: every fitted dataset of the registry has all fraction
values strictly above `x_c`, so the model returns a real value there. -/
noncomputable def mkFitRow (d : Dataset) (p : ℝ × ℝ) : FitRow :=
  let A := p.1
  let B := p.2
  let xr : List ℝ := d.x.map fun q => (q : ℝ)
  let yr : List ℝ := d.sigma.map fun q => (q : ℝ)
  let y_fit : List ℝ := xr.map fun xi => percolationVal xi A B
  { system := d.system, charge := d.charge, A := A, B := B,
    vpi := B / A,
    rmse := Real.sqrt (mean_squared_error yr y_fit),
    r2 := r2_score yr y_fit }

/-- Cells of one console-table line (source lines 83 and 106): either the
`--` placeholders or the fitted values. -/
inductive ConsoleCells
  | placeholder
  | fitted (A B vpi rmse r2 : ℝ)

/-- One console-table line: the system name plus its cells. -/
structure ConsoleRow where
  system : String
  cells : ConsoleCells

/-- Console line printed for a fitted dataset (source line 106). -/
noncomputable def consoleRowFit (d : Dataset) (p : ℝ × ℝ) : ConsoleRow :=
  let r := mkFitRow d p
  { system := d.system, cells := ConsoleCells.fitted r.A r.B r.vpi r.rmse r.r2 }

/-- Console line for a dataset under a total solver (source lines 83, 106). -/
noncomputable def consoleRowOf (solver : Dataset → ℝ × ℝ) (d : Dataset) : ConsoleRow :=
  if d.fit = true then consoleRowFit d (solver d)
  else { system := d.system, cells := ConsoleCells.placeholder }

/-- The raw data table accumulated over a list of datasets (source
lines 79-80): every dataset contributes its rows regardless of the flag. -/
def rawTableOf (ds : List Dataset) : List RawRow :=
  ds.flatMap rawRows

/-- The fit table accumulated over a list of datasets under a total solver
(source lines 82-104): only datasets with the flag set contribute. -/
noncomputable def fitTableOf (solver : Dataset → ℝ × ℝ) (ds : List Dataset) : List FitRow :=
  ds.filterMap fun d => if d.fit = true then some (mkFitRow d (solver d)) else none

/-- The console table under a total solver: one line per dataset. -/
noncomputable def consoleTableOf (solver : Dataset → ℝ × ℝ) (ds : List Dataset) : List ConsoleRow :=
  ds.map (consoleRowOf solver)

/-- The main loop (source lines 76-106) under a fallible solver: raw rows
are appended first, unfitted datasets get a placeholder line, a solver
exception aborts the whole pass (remaining datasets are not processed and
no tables are produced), as the uncaught `curve_fit` exception does. -/
noncomputable def runLoop (solver : Dataset → Except Unit (ℝ × ℝ)) :
    List Dataset → Except Unit (List ConsoleRow × List RawRow × List FitRow)
  | [] => Except.ok ([], [], [])
  | d :: ds =>
    if d.fit = true then
      match solver d with
      | Except.error e => Except.error e
      | Except.ok p =>
        match runLoop solver ds with
        | Except.error e => Except.error e
        | Except.ok (cs, raws, fits) =>
          Except.ok (consoleRowFit d p :: cs, rawRows d ++ raws, mkFitRow d p :: fits)
    else
      match runLoop solver ds with
      | Except.error e => Except.error e
      | Except.ok (cs, raws, fits) =>
        Except.ok ({ system := d.system, cells := ConsoleCells.placeholder } :: cs,
                   rawRows d ++ raws, fits)

/-- Round half to even at integer precision, the rounding used by Python
float formatting. -/
def rne (q : ℚ) : ℤ :=
  if q - ⌊q⌋ < 1/2 then ⌊q⌋
  else if 1/2 < q - ⌊q⌋ then ⌊q⌋ + 1
  else if ⌊q⌋ % 2 = 0 then ⌊q⌋ else ⌊q⌋ + 1

/-- Value denoted by fixed-point formatting with `p` decimals, as in the
Python format `.2f`: write then parse. -/
def fmtFixed (p : ℕ) (q : ℚ) : ℚ :=
  (rne (q * 10 ^ p) : ℚ) / 10 ^ p

/-- Value denoted by scientific formatting with `p` mantissa decimals, as
in the Python format `.3e`: write then parse. -/
def fmtSci (p : ℕ) (q : ℚ) : ℚ :=
  if q = 0 then 0
  else ((rne (q / 10 ^ Int.log 10 |q| * 10 ^ (p : ℤ)) : ℚ) / 10 ^ (p : ℤ)) * 10 ^ Int.log 10 |q|

open Classical in
/-- Round half to even on a real value (Python float formatting of the
fitted real quantities). -/
noncomputable def rneR (v : ℝ) : ℤ :=
  if v - ⌊v⌋ < 1/2 then ⌊v⌋
  else if 1/2 < v - ⌊v⌋ then ⌊v⌋ + 1
  else if ⌊v⌋ % 2 = 0 then ⌊v⌋ else ⌊v⌋ + 1

/-- Value denoted by fixed-point formatting of a real at `p` decimals. -/
noncomputable def fmtFixedR (p : ℕ) (v : ℝ) : ℝ :=
  (rneR (v * 10 ^ p) : ℝ) / 10 ^ p

open Classical in
/-- Value denoted by scientific formatting of a real with `p` mantissa
decimals. -/
noncomputable def fmtSciR (p : ℕ) (v : ℝ) : ℝ :=
  if v = 0 then 0
  else ((rneR (v / 10 ^ Int.log 10 |v| * 10 ^ (p : ℤ)) : ℝ) / 10 ^ (p : ℤ)) * 10 ^ Int.log 10 |v|

/-- Header line of `SI_Raw_Digitized_Data.csv` (source line 165). -/
def rawCSVHeader : String := "System,Charge,Salt_Weight_Fraction,Conductivity_S_cm"

/-- One data row of `SI_Raw_Digitized_Data.csv` holding the values the
printed text denotes. -/
structure RawCSVRow where
  system : String
  charge : ℤ
  x : ℚ
  sigma : ℚ

/-- The raw CSV row written for a raw table row (source line 168):
fraction at 2 decimals, conductivity in scientific format with 3 mantissa
decimals. -/
def rawCSVRowOf (r : RawRow) : RawCSVRow :=
  { system := r.system, charge := r.charge, x := fmtFixed 2 r.x, sigma := fmtSci 3 r.sigma }

/-- Header line of `SI_Fitted_Parameters_and_VPI.csv` (source line 172). -/
def paramsCSVHeader : String := "System,Charge,A,B,VPI,RMSE_S_cm,R2"

/-- One data row of `SI_Fitted_Parameters_and_VPI.csv` holding the values
the printed text denotes. -/
structure ParamsCSVRow where
  system : String
  charge : ℤ
  A : ℝ
  B : ℝ
  vpi : ℝ
  rmse : ℝ
  r2 : ℝ

/-- The parameters CSV row written for a fit-table row (source line 175):
A and B at 4 decimals, VPI at 2 decimals, RMSE in scientific format with
3 mantissa decimals, R² at 3 decimals. -/
noncomputable def paramsCSVRowOf (r : FitRow) : ParamsCSVRow :=
  { system := r.system, charge := r.charge,
    A := fmtFixedR 4 r.A, B := fmtFixedR 4 r.B, vpi := fmtFixedR 2 r.vpi,
    rmse := fmtSciR 3 r.rmse, r2 := fmtFixedR 3 r.r2 }

/-- The CSV payload of a finished run: `none` when the loop aborted (no
file is written), otherwise the two lists of formatted data rows
(source lines 164-175). -/
noncomputable def csvExportOf
    (r : Except Unit (List ConsoleRow × List RawRow × List FitRow)) :
    Option (List RawCSVRow × List ParamsCSVRow) :=
  match r with
  | Except.error _ => none
  | Except.ok (_, raws, fits) => some (raws.map rawCSVRowOf, fits.map paramsCSVRowOf)

/-- The plotter lookup `next(r for r in fit_table if r[0] == system)`
(source line 139), returning the first matching row if any. -/
def plotLookup (fits : List FitRow) (s : String) : Option FitRow :=
  fits.find? fun r => r.system == s

/-- Initial guess `p0 = [0.05, 0.5]` of the `curve_fit` call (source line 92). -/
def p0 : ℝ × ℝ := (0.05, 0.5)

/-- Lower bounds `[1e-4, 0.01]` of the `curve_fit` call (source line 93). -/
def fitBoundsLo : ℝ × ℝ := (1e-4, 0.01)

/-- Upper bounds `[1.0, 10.0]` of the `curve_fit` call (source line 93). -/
def fitBoundsHi : ℝ × ℝ := (1.0, 10.0)

/-- Solver evaluation cap `maxfev=30000` (source line 94). -/
def maxfev : ℕ := 30000

/-- A concrete total solver used to instantiate witnesses. -/
def solver0 : Dataset → ℝ × ℝ := fun _ => (1, 2)

/-- A concrete total solver respecting the fit bounds, used to instantiate
witnesses. -/
def solverB : Dataset → ℝ × ℝ := fun _ => (0.05, 0.5)

/-- A concrete fallible solver that always raises, used to instantiate
witnesses. -/
def solverE0 : Dataset → Except Unit (ℝ × ℝ) := fun _ => Except.error ()

/-- The fixed exponent 4.5 is not an integer, so a negative base raised to
it is NaN in numpy. -/
theorem not_int_45 : ¬ ∃ n : ℤ, (4.5 : ℝ) = (n : ℝ) := by
  rintro ⟨n, hn⟩
  have h2 : ((2 * n : ℤ) : ℝ) = 9 := by push_cast; linarith
  have h3 : (2 * n : ℤ) = 9 := by exact_mod_cast h2
  omega

theorem percolation_defined (x A B : ℝ) (hx : ¬ x - x_c < 0) :
    percolation_model_fixed_t x A B = some (percolationVal x A B) := by
  unfold percolation_model_fixed_t
  rw [if_neg]
  rintro ⟨h1, -⟩
  exact hx h1

@[simp] theorem mkFitRow_system (d : Dataset) (p : ℝ × ℝ) :
    (mkFitRow d p).system = d.system := rfl

@[simp] theorem mkFitRow_A (d : Dataset) (p : ℝ × ℝ) :
    (mkFitRow d p).A = p.1 := rfl

@[simp] theorem mkFitRow_B (d : Dataset) (p : ℝ × ℝ) :
    (mkFitRow d p).B = p.2 := rfl

@[simp] theorem mkFitRow_vpi (d : Dataset) (p : ℝ × ℝ) :
    (mkFitRow d p).vpi = p.2 / p.1 := rfl

theorem fitTableOf_systems (solver : Dataset → ℝ × ℝ) (ds : List Dataset) :
    (fitTableOf solver ds).map (fun r => r.system)
      = (ds.filter fun d => d.fit).map fun d => d.system := by
  induction ds with
  | nil => rfl
  | cons d t ih =>
    by_cases h : d.fit = true
    · simp only [fitTableOf, List.filterMap_cons, if_pos h, List.map_cons,
        List.filter_cons_of_pos h, mkFitRow_system]
      exact congrArg _ ih
    · simp only [fitTableOf, List.filterMap_cons, if_neg h,
        List.filter_cons_of_neg h]
      exact ih

theorem fitTableOf_eq_filter (solver : Dataset → ℝ × ℝ) (ds : List Dataset) :
    fitTableOf solver ds
      = (ds.filter fun d => d.fit).map fun d => mkFitRow d (solver d) := by
  induction ds with
  | nil => rfl
  | cons d t ih =>
    by_cases h : d.fit = true
    · simp only [fitTableOf, List.filterMap_cons, if_pos h, List.map_cons,
        List.filter_cons_of_pos h]
      exact congrArg _ ih
    · simp only [fitTableOf, List.filterMap_cons, if_neg h,
        List.filter_cons_of_neg h]
      exact ih

/-- The single pass of the source, run with a solver that always succeeds,
produces exactly the three per-dataset tables. -/
theorem runLoop_pure (solver : Dataset → ℝ × ℝ) (ds : List Dataset) :
    runLoop (fun d => Except.ok (solver d)) ds
      = Except.ok (consoleTableOf solver ds, rawTableOf ds, fitTableOf solver ds) := by
  induction ds with
  | nil => rfl
  | cons d t ih =>
    by_cases h : d.fit = true
    · simp only [runLoop, h, if_pos, ih, consoleTableOf, List.map_cons,
        consoleRowOf, rawTableOf, List.flatMap_cons, fitTableOf,
        List.filterMap_cons, if_true]
    · simp only [runLoop, h, if_false, ih, consoleTableOf, List.map_cons,
        consoleRowOf, rawTableOf, List.flatMap_cons, fitTableOf,
        List.filterMap_cons, Bool.false_eq_true]

theorem rawRows_sublist (d : Dataset) (ds : List Dataset) (hd : d ∈ ds) :
    (rawRows d).Sublist (rawTableOf ds) := by
  induction ds with
  | nil => cases hd
  | cons d2 t ih =>
    rcases List.mem_cons.mp hd with rfl | h
    · exact List.sublist_append_left _ _
    · exact (ih h).trans (List.sublist_append_right _ _)

/-- The fit table of the registry under any total solver: one row per
fitted dataset, in registry order. -/
theorem fitTableOf_registry (solver : Dataset → ℝ × ℝ) :
    fitTableOf solver data_registry
      = [mkFitRow dsLiCl (solver dsLiCl), mkFitRow dsNH4I (solver dsNH4I),
         mkFitRow dsMgNO3 (solver dsMgNO3), mkFitRow dsZnCl2 (solver dsZnCl2)] := rfl

/-- C1: the model evaluator agrees with the closed form of the spec,
A · (x − 0.05)^4.5 · exp(−B · x), wherever the IEEE expression denotes a
real number — in particular on every x ≥ x_c, which covers all data the
program feeds it; the embedding is a pure function, so there are no side
effects.  Below x_c both the evaluator and the expression are NaN (C2). -/
theorem percolation_eval_closed_form (x A B : ℝ) (hx : x_c ≤ x) :
    percolation_model_fixed_t x A B = some (specClosedForm x A B) := by
  rw [percolation_defined x A B (by simp only [not_lt]; linarith)]
  rfl

/-- Witness for C1 at x = 0.1, A = 1, B = 1. -/
theorem percolation_eval_closed_form_witness :
    percolation_model_fixed_t 0.1 1 1 = some (specClosedForm 0.1 1 1) :=
  percolation_eval_closed_form 0.1 1 1 (by norm_num [x_c])

/-- C2 counterexample: at the boundary x = x_c = 0.05 the evaluator is
defined and returns 0 — numpy computes 0.0 ** 4.5 = 0.0, not NaN — so the
claim "for every x less than or equal to x_c the result is NaN" fails at
x = x_c (with A = 1, B = 1). -/
theorem percolation_nan_at_boundary_cex :
    percolation_model_fixed_t 0.05 1 1 = some 0 ∧
    percolation_model_fixed_t 0.05 1 1 ≠ none := by
  have hv : percolation_model_fixed_t 0.05 1 1 = some (percolationVal 0.05 1 1) :=
    percolation_defined 0.05 1 1 (by norm_num [x_c])
  have h0 : percolationVal 0.05 1 1 = 0 := by
    unfold percolationVal x_c
    rw [show (0.05 : ℝ) - 0.05 = 0 by norm_num,
        Real.zero_rpow (by norm_num : (4.5 : ℝ) ≠ 0)]
    ring
  rw [hv, h0]
  exact ⟨rfl, by simp⟩

/-- C2 (amended): the NaN region is x strictly below x_c — for every
x < x_c the evaluator returns NaN (`none`); at x = x_c itself the result
is defined (see the counterexample).  Moreover every fitted dataset of
the registry has all its fraction values strictly above x_c = 0.05, as
the spec requires of callers. -/
theorem percolation_nan_strict (x A B : ℝ) (d : Dataset) (q : ℚ)
    (hx : x < x_c) (hd : d ∈ data_registry) (hf : d.fit = true) (hq : q ∈ d.x) :
    percolation_model_fixed_t x A B = none ∧ (0.05 : ℚ) < q := by
  constructor
  · unfold percolation_model_fixed_t
    rw [if_pos ⟨sub_neg.mpr hx, not_int_45⟩]
  · simp only [data_registry, List.mem_cons, List.not_mem_nil, or_false] at hd
    rcases hd with rfl | rfl | rfl | rfl | rfl
    · simp only [dsLiCl, List.mem_cons, List.not_mem_nil, or_false] at hq
      rcases hq with rfl | rfl | rfl | rfl | rfl <;> norm_num
    · simp only [dsNaN3] at hf
      exact (Bool.false_ne_true hf).elim
    · simp only [dsNH4I, List.mem_cons, List.not_mem_nil, or_false] at hq
      rcases hq with rfl | rfl | rfl | rfl | rfl <;> norm_num
    · simp only [dsMgNO3, List.mem_cons, List.not_mem_nil, or_false] at hq
      rcases hq with rfl | rfl | rfl | rfl <;> norm_num
    · simp only [dsZnCl2, List.mem_cons, List.not_mem_nil, or_false] at hq
      rcases hq with rfl | rfl | rfl <;> norm_num

/-- Witness for the amended C2 at x = 0, A = 1, B = 1 and the fraction
value 0.10 of the fitted dataset LiCl. -/
theorem percolation_nan_strict_witness :
    percolation_model_fixed_t 0 1 1 = none ∧ (0.05 : ℚ) < 0.10 :=
  percolation_nan_strict 0 1 1 dsLiCl 0.10 (by norm_num [x_c])
    (by simp [data_registry]) rfl (by simp [dsLiCl])

/-- C3 counterexample: at x = 0.1 > x_c with A = 0 the result is 0 for
every B — defined but not positive, and equal at B = 1 and B = 2 instead
of strictly decreasing — so the claim fails without a positivity
hypothesis on A. -/
theorem percolation_positive_cex :
    percolation_model_fixed_t 0.1 0 1 = some 0 ∧
    percolation_model_fixed_t 0.1 0 2 = some 0 := by
  constructor <;>
  · rw [percolation_defined _ _ _ (by norm_num [x_c])]
    unfold percolationVal
    rw [zero_mul, zero_mul]

/-- C3 (amended): for x > x_c and A > 0 (positivity of A is needed, see
the counterexample) the evaluator is defined — hence finite — positive,
and strictly decreasing in B for fixed A and x. -/
theorem percolation_pos_strict_anti (x A B₁ B₂ : ℝ)
    (hx : x_c < x) (hA : 0 < A) (hB : B₁ < B₂) :
    percolation_model_fixed_t x A B₁ = some (percolationVal x A B₁) ∧
    0 < percolationVal x A B₁ ∧
    percolationVal x A B₂ < percolationVal x A B₁ := by
  have hx0 : (0 : ℝ) < x := lt_trans (by norm_num [x_c]) hx
  have hbase : (0 : ℝ) < x - x_c := sub_pos.mpr hx
  have hk : (0 : ℝ) < (x - x_c) ^ (4.5 : ℝ) := Real.rpow_pos_of_pos hbase _
  have hAk : (0 : ℝ) < A * (x - x_c) ^ (4.5 : ℝ) := mul_pos hA hk
  refine ⟨percolation_defined x A B₁ (by simp only [not_lt]; linarith), ?_, ?_⟩
  · exact mul_pos hAk (Real.exp_pos _)
  · unfold percolationVal
    have he : Real.exp (-B₂ * x) < Real.exp (-B₁ * x) :=
      Real.exp_lt_exp.mpr (by nlinarith)
    exact mul_lt_mul_of_pos_left he hAk

/-- Witness for the amended C3 at x = 0.1, A = 1, B₁ = 1, B₂ = 2. -/
theorem percolation_pos_strict_anti_witness :
    percolation_model_fixed_t 0.1 1 1 = some (percolationVal 0.1 1 1) ∧
    0 < percolationVal 0.1 1 1 ∧
    percolationVal 0.1 1 2 < percolationVal 0.1 1 1 :=
  percolation_pos_strict_anti 0.1 1 1 2 (by norm_num [x_c]) (by norm_num) (by norm_num)

/-- C4: every row of the fit table — exactly the rows written to
`SI_Fitted_Parameters_and_VPI.csv` — satisfies VPI = B/A exactly, and the
VPI field of the written row is the 2-decimal rendering of exactly B/A
(while A and B are written at 4 decimals). -/
theorem vpi_eq_B_div_A (solver : Dataset → ℝ × ℝ) (row : FitRow)
    (hr : row ∈ fitTableOf solver data_registry) :
    row.vpi = row.B / row.A ∧
    (paramsCSVRowOf row).vpi = fmtFixedR 2 (row.B / row.A) := by
  have h1 : row.vpi = row.B / row.A := by
    rcases List.mem_filterMap.mp hr with ⟨d, hd, hsome⟩
    by_cases hfl : d.fit = true
    · rw [if_pos hfl] at hsome
      have hrow := Option.some.inj hsome
      subst hrow
      rfl
    · rw [if_neg hfl] at hsome
      cases hsome
  refine ⟨h1, ?_⟩
  show fmtFixedR 2 row.vpi = fmtFixedR 2 (row.B / row.A)
  rw [h1]

/-- Witness for C4 on the LiCl row under the solver `solver0`. -/
theorem vpi_eq_B_div_A_witness :
    (mkFitRow dsLiCl (solver0 dsLiCl)).vpi
      = (mkFitRow dsLiCl (solver0 dsLiCl)).B / (mkFitRow dsLiCl (solver0 dsLiCl)).A ∧
    (paramsCSVRowOf (mkFitRow dsLiCl (solver0 dsLiCl))).vpi
      = fmtFixedR 2 ((mkFitRow dsLiCl (solver0 dsLiCl)).B / (mkFitRow dsLiCl (solver0 dsLiCl)).A) :=
  vpi_eq_B_div_A solver0 (mkFitRow dsLiCl (solver0 dsLiCl))
    (by rw [fitTableOf_registry]; exact List.mem_cons_self _ _)

/-- C5: for every dataset of the registry, under any total solver, the fit
table — the source of the parameters CSV — contains exactly one row
bearing its system name when its flag is true and none when it is false
(for a skipped dataset no parameters or metrics are computed at all: the
loop contributes nothing for it to the fit table), while its raw rows
always occur, in order, inside the raw table that the raw CSV writes. -/
theorem skip_flag_csv_rows (solver : Dataset → ℝ × ℝ) (d : Dataset)
    (hd : d ∈ data_registry) :
    ((fitTableOf solver data_registry).map (fun r => r.system)).count d.system
      = (if d.fit = true then 1 else 0) ∧
    (rawRows d).Sublist (rawTableOf data_registry) := by
  refine ⟨?_, rawRows_sublist d data_registry hd⟩
  rw [fitTableOf_systems]
  simp only [data_registry, List.mem_cons, List.not_mem_nil, or_false] at hd
  rcases hd with rfl | rfl | rfl | rfl | rfl <;> decide

/-- Witness for C5 on the skipped dataset NaN3 under the solver `solver0`. -/
theorem skip_flag_csv_rows_witness :
    ((fitTableOf solver0 data_registry).map (fun r => r.system)).count dsNaN3.system
      = (if dsNaN3.fit = true then 1 else 0) ∧
    (rawRows dsNaN3).Sublist (rawTableOf data_registry) :=
  skip_flag_csv_rows solver0 dsNaN3 (by simp [data_registry])

/-- C8: under the bound constraint of the `curve_fit` call — the first
lower bound, `fitBoundsLo.1 = 1e-4`, is a strictly positive floor for A —
every fit-table row has a nonzero (indeed positive) divisor A, so the
division computing VPI = B/A cannot fail, and the computed VPI is the
exact quotient: A · VPI = B. -/
theorem vpi_division_safe (solver : Dataset → ℝ × ℝ)
    (hb : ∀ d, fitBoundsLo.1 ≤ (solver d).1) (row : FitRow)
    (hr : row ∈ fitTableOf solver data_registry) :
    0 < row.A ∧ row.A ≠ 0 ∧ row.A * row.vpi = row.B := by
  rcases List.mem_filterMap.mp hr with ⟨d, hd, hsome⟩
  by_cases hfl : d.fit = true
  · rw [if_pos hfl] at hsome
    have hrow := Option.some.inj hsome
    subst hrow
    have hA : (0 : ℝ) < (solver d).1 :=
      lt_of_lt_of_le (by norm_num [fitBoundsLo]) (hb d)
    refine ⟨hA, ne_of_gt hA, ?_⟩
    show (solver d).1 * ((solver d).2 / (solver d).1) = (solver d).2
    exact mul_div_cancel₀ _ (ne_of_gt hA)
  · rw [if_neg hfl] at hsome
    cases hsome

/-- Witness for C8 on the LiCl row under the in-bounds solver `solverB`. -/
theorem vpi_division_safe_witness :
    0 < (mkFitRow dsLiCl (solverB dsLiCl)).A ∧
    (mkFitRow dsLiCl (solverB dsLiCl)).A ≠ 0 ∧
    (mkFitRow dsLiCl (solverB dsLiCl)).A * (mkFitRow dsLiCl (solverB dsLiCl)).vpi
      = (mkFitRow dsLiCl (solverB dsLiCl)).B :=
  vpi_division_safe solverB (fun _ => by norm_num [fitBoundsLo, solverB])
    (mkFitRow dsLiCl (solverB dsLiCl))
    (by rw [fitTableOf_registry]; exact List.mem_cons_self _ _)

/-- C10: after the fitting loop, for every registry dataset with the flag
set, the fit table contains exactly one row whose first field is the
system name of that dataset, so the plotter lookup
`next(r for r in fit_table if r[0] == system)` finds a row — it can never
raise an exhausted-iterator error. -/
theorem fit_table_lookup_total (solver : Dataset → ℝ × ℝ) (d : Dataset)
    (hd : d ∈ data_registry) (hf : d.fit = true) :
    ((fitTableOf solver data_registry).map (fun r => r.system)).count d.system = 1 ∧
    (plotLookup (fitTableOf solver data_registry) d.system).isSome = true := by
  have hc : ((fitTableOf solver data_registry).map (fun r => r.system)).count d.system = 1 := by
    rw [fitTableOf_systems]
    simp only [data_registry, List.mem_cons, List.not_mem_nil, or_false] at hd
    rcases hd with rfl | rfl | rfl | rfl | rfl
    · decide
    · exact (Bool.false_ne_true hf).elim
    · decide
    · decide
    · decide
  refine ⟨hc, ?_⟩
  have hmem : d.system ∈ (fitTableOf solver data_registry).map (fun r => r.system) :=
    List.count_pos_iff.mp (by rw [hc]; norm_num)
  rcases List.mem_map.mp hmem with ⟨r, hr, hrs⟩
  rw [plotLookup, List.find?_isSome]
  exact ⟨r, hr, by simp [hrs]⟩

/-- Witness for C10 on the fitted dataset LiCl under the solver `solver0`. -/
theorem fit_table_lookup_total_witness :
    ((fitTableOf solver0 data_registry).map (fun r => r.system)).count dsLiCl.system = 1 ∧
    (plotLookup (fitTableOf solver0 data_registry) dsLiCl.system).isSome = true :=
  fit_table_lookup_total solver0 dsLiCl (by simp [data_registry]) rfl

/-- C7: if the loop reaches a fitted dataset d on which the solver raises
(every fitted dataset before d solved), the exception propagates: the
whole run evaluates to that very error — independently of the datasets
after d, so none of them is fitted and no retry or fallback-parameter
path exists — and the CSV export of the run is `none`: no CSV file is
written. -/
theorem solver_failure_aborts_run (solver : Dataset → Except Unit (ℝ × ℝ))
    (ds₁ : List Dataset) (d : Dataset) (ds₂ : List Dataset) (e : Unit)
    (h₁ : ∀ d2 ∈ ds₁, d2.fit = true → ∃ p, solver d2 = Except.ok p)
    (hf : d.fit = true) (he : solver d = Except.error e) :
    runLoop solver (ds₁ ++ d :: ds₂) = Except.error e ∧
    csvExportOf (runLoop solver (ds₁ ++ d :: ds₂)) = none := by
  have hmain : runLoop solver (ds₁ ++ d :: ds₂) = Except.error e := by
    induction ds₁ with
    | nil => simp only [List.nil_append, runLoop, hf, if_true, he]
    | cons d2 t ih =>
      have ih2 := ih fun z hz hfz => h₁ z (List.mem_cons_of_mem _ hz) hfz
      by_cases h2 : d2.fit = true
      · obtain ⟨p, hp⟩ := h₁ d2 (List.mem_cons_self _ _) h2
        simp only [List.cons_append, runLoop, h2, if_true, hp, List.append_eq, ih2]
      · simp only [List.cons_append, runLoop, h2, Bool.false_eq_true, if_false,
          List.append_eq, ih2]
  exact ⟨hmain, by rw [hmain]; rfl⟩

/-- Witness for C7: the always-raising solver `solverE0` on the registry,
split before its first fitted dataset LiCl. -/
theorem solver_failure_aborts_run_witness :
    runLoop solverE0 ([] ++ dsLiCl :: [dsNaN3, dsNH4I, dsMgNO3, dsZnCl2])
      = Except.error () ∧
    csvExportOf (runLoop solverE0 ([] ++ dsLiCl :: [dsNaN3, dsNH4I, dsMgNO3, dsZnCl2]))
      = none :=
  solver_failure_aborts_run solverE0 [] dsLiCl [dsNaN3, dsNH4I, dsMgNO3, dsZnCl2] ()
    (fun z hz => (List.not_mem_nil z hz).elim) rfl rfl

/-- C9: the single pass over the registry yields the console table, the
raw table and the fit table in registry insertion order — one console
line per dataset, the raw rows dataset by dataset, the fit rows as the
in-order image of the fitted datasets — and apart from this row order the
run is order-independent: each output distributes over concatenation of
the registry, and permuting the registry merely permutes the output rows
without changing any row. -/
theorem output_order_follows_registry (solver : Dataset → ℝ × ℝ)
    (ds ds2 : List Dataset) (hp : ds.Perm ds2) :
    runLoop (fun d => Except.ok (solver d)) data_registry
      = Except.ok (data_registry.map (consoleRowOf solver),
                   data_registry.flatMap rawRows,
                   (data_registry.filter fun d => d.fit).map fun d => mkFitRow d (solver d)) ∧
    rawTableOf (ds ++ ds2) = rawTableOf ds ++ rawTableOf ds2 ∧
    fitTableOf solver (ds ++ ds2) = fitTableOf solver ds ++ fitTableOf solver ds2 ∧
    consoleTableOf solver (ds ++ ds2) = consoleTableOf solver ds ++ consoleTableOf solver ds2 ∧
    (rawTableOf ds).Perm (rawTableOf ds2) ∧
    (fitTableOf solver ds).Perm (fitTableOf solver ds2) ∧
    (consoleTableOf solver ds).Perm (consoleTableOf solver ds2) := by
  refine ⟨?_, ?_, ?_, ?_, ?_, ?_, ?_⟩
  · rw [runLoop_pure, fitTableOf_eq_filter]
    rfl
  · simp only [rawTableOf, List.flatMap_append]
  · simp only [fitTableOf, List.filterMap_append]
  · simp only [consoleTableOf, List.map_append]
  · exact hp.flatMap_right rawRows
  · exact List.Perm.filterMap _ hp
  · exact hp.map (consoleRowOf solver)

/-- Witness for C9 on the transposition of the first two registry
datasets under the solver `solver0`. -/
theorem output_order_follows_registry_witness :
    runLoop (fun d => Except.ok (solver0 d)) data_registry
      = Except.ok (data_registry.map (consoleRowOf solver0),
                   data_registry.flatMap rawRows,
                   (data_registry.filter fun d => d.fit).map fun d => mkFitRow d (solver0 d)) ∧
    rawTableOf ([dsLiCl, dsNaN3] ++ [dsNaN3, dsLiCl])
      = rawTableOf [dsLiCl, dsNaN3] ++ rawTableOf [dsNaN3, dsLiCl] ∧
    fitTableOf solver0 ([dsLiCl, dsNaN3] ++ [dsNaN3, dsLiCl])
      = fitTableOf solver0 [dsLiCl, dsNaN3] ++ fitTableOf solver0 [dsNaN3, dsLiCl] ∧
    consoleTableOf solver0 ([dsLiCl, dsNaN3] ++ [dsNaN3, dsLiCl])
      = consoleTableOf solver0 [dsLiCl, dsNaN3] ++ consoleTableOf solver0 [dsNaN3, dsLiCl] ∧
    (rawTableOf [dsLiCl, dsNaN3]).Perm (rawTableOf [dsNaN3, dsLiCl]) ∧
    (fitTableOf solver0 [dsLiCl, dsNaN3]).Perm (fitTableOf solver0 [dsNaN3, dsLiCl]) ∧
    (consoleTableOf solver0 [dsLiCl, dsNaN3]).Perm (consoleTableOf solver0 [dsNaN3, dsLiCl]) :=
  output_order_follows_registry solver0 [dsLiCl, dsNaN3] [dsNaN3, dsLiCl]
    (List.Perm.swap dsNaN3 dsLiCl [])

theorem rne_intCast (n : ℤ) : rne (n : ℚ) = n := by
  unfold rne
  rw [Int.floor_intCast, sub_self, if_pos (by norm_num : (0 : ℚ) < 1/2)]

theorem fmtFixed_int_eq (p : ℕ) (q : ℚ) (n : ℤ) (h : q * 10 ^ p = (n : ℚ)) :
    fmtFixed p q = q := by
  unfold fmtFixed
  rw [h, rne_intCast, ← h]
  exact mul_div_cancel_right₀ q (pow_ne_zero p (by norm_num))

theorem log10_of_sig3 (q : ℚ) (n e : ℤ) (h1 : q * 10 ^ ((3 : ℤ) - e) = (n : ℚ))
    (h2 : 10 ^ 3 ≤ n) (h3 : n < 10 ^ 4) : Int.log 10 q = e := by
  have hpow : (0 : ℚ) < 10 ^ ((3 : ℤ) - e) := by positivity
  have hn : (1000 : ℚ) ≤ (n : ℚ) := by exact_mod_cast h2
  have h0 : (0 : ℚ) < q := by
    by_contra hq
    push_neg at hq
    have hle : q * 10 ^ ((3 : ℤ) - e) ≤ 0 :=
      mul_nonpos_of_nonpos_of_nonneg hq hpow.le
    rw [h1] at hle
    linarith
  have hle : ((10 : ℕ) : ℚ) ^ e ≤ q := by
    push_cast
    rw [show (e : ℤ) = 3 - (3 - e) by ring, zpow_sub₀ (by norm_num : (10 : ℚ) ≠ 0)]
    rw [div_le_iff₀ hpow, h1]
    exact_mod_cast h2
  have hlt : q < ((10 : ℕ) : ℚ) ^ (e + 1) := by
    push_cast
    rw [show (e + 1 : ℤ) = 4 - (3 - e) by ring, zpow_sub₀ (by norm_num : (10 : ℚ) ≠ 0)]
    rw [lt_div_iff₀ hpow, h1]
    exact_mod_cast h3
  have ha : e ≤ Int.log 10 q := (Int.zpow_le_iff_le_log (by norm_num) h0).mp hle
  have hb : Int.log 10 q < e + 1 := (Int.lt_zpow_iff_log_lt (by norm_num) h0).mp hlt
  omega

theorem fmtSci3_eq (q : ℚ) (n e : ℤ) (h1 : q * 10 ^ ((3 : ℤ) - e) = (n : ℚ))
    (h2 : 10 ^ 3 ≤ n) (h3 : n < 10 ^ 4) : fmtSci 3 q = q := by
  have hpow : (0 : ℚ) < 10 ^ ((3 : ℤ) - e) := by positivity
  have hn : (1000 : ℚ) ≤ (n : ℚ) := by exact_mod_cast h2
  have h0 : (0 : ℚ) < q := by
    by_contra hq
    push_neg at hq
    have hle : q * 10 ^ ((3 : ℤ) - e) ≤ 0 :=
      mul_nonpos_of_nonpos_of_nonneg hq hpow.le
    rw [h1] at hle
    linarith
  have hten : (10 : ℚ) ≠ 0 := by norm_num
  have he0 : (10 : ℚ) ^ e ≠ 0 := zpow_ne_zero e hten
  have hlog : Int.log 10 |q| = e := by
    rw [abs_of_pos h0]
    exact log10_of_sig3 q n e h1 h2 h3
  unfold fmtSci
  rw [if_neg (ne_of_gt h0), hlog]
  have hq3 : q / 10 ^ e * 10 ^ ((3 : ℕ) : ℤ) = (n : ℚ) := by
    rw [← h1, zpow_sub₀ hten]
    push_cast
    field_simp
  rw [hq3, rne_intCast, ← h1, zpow_sub₀ hten]
  push_cast
  field_simp
  ring

theorem rawCSVRowOf_id (s : String) (c : ℤ) (x σ : ℚ) (nx n e : ℤ)
    (hx : x * 10 ^ (2 : ℕ) = (nx : ℚ)) (h1 : σ * 10 ^ ((3 : ℤ) - e) = (n : ℚ))
    (h2 : 10 ^ 3 ≤ n) (h3 : n < 10 ^ 4) :
    rawCSVRowOf { system := s, charge := c, x := x, sigma := σ }
      = { system := s, charge := c, x := x, sigma := σ } := by
  unfold rawCSVRowOf
  congr 1
  · exact fmtFixed_int_eq 2 x nx hx
  · exact fmtSci3_eq σ n e h1 h2 h3

/-- The raw table of the registry, fully enumerated: one row per
(dataset, point) pair, in registry order. -/
theorem rawTable_registry :
    rawTableOf data_registry =
      [{ system := "LiCl (Li+)", charge := 1, x := 0.10, sigma := 4.98e-7 },
       { system := "LiCl (Li+)", charge := 1, x := 0.20, sigma := 3.55e-6 },
       { system := "LiCl (Li+)", charge := 1, x := 0.30, sigma := 3.61e-5 },
       { system := "LiCl (Li+)", charge := 1, x := 0.40, sigma := 6.61e-4 },
       { system := "LiCl (Li+)", charge := 1, x := 0.50, sigma := 2.08e-3 },
       { system := "NaN3 (Na+)", charge := 1, x := 0.05, sigma := 1.85e-7 },
       { system := "NaN3 (Na+)", charge := 1, x := 0.10, sigma := 2.70e-6 },
       { system := "NaN3 (Na+)", charge := 1, x := 0.15, sigma := 2.40e-6 },
       { system := "NaN3 (Na+)", charge := 1, x := 0.20, sigma := 2.20e-6 },
       { system := "NH4I (NH4+)", charge := 1, x := 0.30, sigma := 5.1e-6 },
       { system := "NH4I (NH4+)", charge := 1, x := 0.40, sigma := 9.7e-5 },
       { system := "NH4I (NH4+)", charge := 1, x := 0.50, sigma := 3.7e-4 },
       { system := "NH4I (NH4+)", charge := 1, x := 0.60, sigma := 1.2e-3 },
       { system := "NH4I (NH4+)", charge := 1, x := 0.70, sigma := 4.5e-3 },
       { system := "Mg(NO3)2 (Mg2+)", charge := 2, x := 0.30, sigma := 4.86e-6 },
       { system := "Mg(NO3)2 (Mg2+)", charge := 2, x := 0.40, sigma := 6.86e-5 },
       { system := "Mg(NO3)2 (Mg2+)", charge := 2, x := 0.50, sigma := 7.70e-4 },
       { system := "Mg(NO3)2 (Mg2+)", charge := 2, x := 0.60, sigma := 7.53e-4 },
       { system := "ZnCl2 (Zn2+)", charge := 2, x := 0.50, sigma := 6.72e-4 },
       { system := "ZnCl2 (Zn2+)", charge := 2, x := 0.60, sigma := 4.49e-3 },
       { system := "ZnCl2 (Zn2+)", charge := 2, x := 0.70, sigma := 4.21e-3 }] := rfl

/-- C6: the raw CSV carries the stated header, one row per
(dataset, point) pair, and writing each (fraction, conductivity) pair —
fraction at 2 decimals, conductivity in scientific format with 3 mantissa
decimals — then parsing it back returns exactly the original dataset
values: every registry value is representable at the stated precision,
so the round-trip is the identity, in particular within the stated
rounding precision. -/
theorem raw_csv_round_trip :
    rawCSVHeader = "System,Charge,Salt_Weight_Fraction,Conductivity_S_cm" ∧
    (rawTableOf data_registry).length
      = (data_registry.map fun d => (d.x.zip d.sigma).length).sum ∧
    (rawTableOf data_registry).map rawCSVRowOf
      = (rawTableOf data_registry).map fun r =>
          { system := r.system, charge := r.charge, x := r.x, sigma := r.sigma } := by
  refine ⟨rfl, by decide, ?_⟩
  refine List.map_congr_left ?_
  intro r hr
  rw [rawTable_registry] at hr
  fin_cases hr
  · exact rawCSVRowOf_id _ _ _ _ 10 4980 (-7) (by norm_num) (by norm_num) (by norm_num) (by norm_num)
  · exact rawCSVRowOf_id _ _ _ _ 20 3550 (-6) (by norm_num) (by norm_num) (by norm_num) (by norm_num)
  · exact rawCSVRowOf_id _ _ _ _ 30 3610 (-5) (by norm_num) (by norm_num) (by norm_num) (by norm_num)
  · exact rawCSVRowOf_id _ _ _ _ 40 6610 (-4) (by norm_num) (by norm_num) (by norm_num) (by norm_num)
  · exact rawCSVRowOf_id _ _ _ _ 50 2080 (-3) (by norm_num) (by norm_num) (by norm_num) (by norm_num)
  · exact rawCSVRowOf_id _ _ _ _ 5 1850 (-7) (by norm_num) (by norm_num) (by norm_num) (by norm_num)
  · exact rawCSVRowOf_id _ _ _ _ 10 2700 (-6) (by norm_num) (by norm_num) (by norm_num) (by norm_num)
  · exact rawCSVRowOf_id _ _ _ _ 15 2400 (-6) (by norm_num) (by norm_num) (by norm_num) (by norm_num)
  · exact rawCSVRowOf_id _ _ _ _ 20 2200 (-6) (by norm_num) (by norm_num) (by norm_num) (by norm_num)
  · exact rawCSVRowOf_id _ _ _ _ 30 5100 (-6) (by norm_num) (by norm_num) (by norm_num) (by norm_num)
  · exact rawCSVRowOf_id _ _ _ _ 40 9700 (-5) (by norm_num) (by norm_num) (by norm_num) (by norm_num)
  · exact rawCSVRowOf_id _ _ _ _ 50 3700 (-4) (by norm_num) (by norm_num) (by norm_num) (by norm_num)
  · exact rawCSVRowOf_id _ _ _ _ 60 1200 (-3) (by norm_num) (by norm_num) (by norm_num) (by norm_num)
  · exact rawCSVRowOf_id _ _ _ _ 70 4500 (-3) (by norm_num) (by norm_num) (by norm_num) (by norm_num)
  · exact rawCSVRowOf_id _ _ _ _ 30 4860 (-6) (by norm_num) (by norm_num) (by norm_num) (by norm_num)
  · exact rawCSVRowOf_id _ _ _ _ 40 6860 (-5) (by norm_num) (by norm_num) (by norm_num) (by norm_num)
  · exact rawCSVRowOf_id _ _ _ _ 50 7700 (-4) (by norm_num) (by norm_num) (by norm_num) (by norm_num)
  · exact rawCSVRowOf_id _ _ _ _ 60 7530 (-4) (by norm_num) (by norm_num) (by norm_num) (by norm_num)
  · exact rawCSVRowOf_id _ _ _ _ 50 6720 (-4) (by norm_num) (by norm_num) (by norm_num) (by norm_num)
  · exact rawCSVRowOf_id _ _ _ _ 60 4490 (-3) (by norm_num) (by norm_num) (by norm_num) (by norm_num)
  · exact rawCSVRowOf_id _ _ _ _ 70 4210 (-3) (by norm_num) (by norm_num) (by norm_num) (by norm_num)

end PectinModel
